import Mathlib

/-!
Shallow embedding of `src/utils/popover.js` (repository `vishal-aalda/table`).

The source file contains two near-identical variants of the `Popover` class:
a remote-backed one (lines 1-264, with `getData` fetching product items) and a
purely local one (lines 265-459, filtering `this.items` on each keystroke).
Both share the same state shape, which we embed as `PopState`:

  - `items`    : the `this.items` array of `PopoverItem`s;
  - `itemEls`  : the `this.itemEls` array of row elements, each row recording
                 its stamped `dataset.index`, its CSS flags
                 (`tc-popover__item--confirm`, `tc-popover__item--hidden`),
                 whether it is currently attached to the wrapper (rows removed
                 by `renderItems` are detached but stay in `this.itemEls`,
                 which is never cleared), and the item it was built from;
  - `rootOpened` : whether the wrapper carries `tc-popover--opened`.

DOM callbacks (`onClick`, `hideIf`) are embedded as data: `onClick` is an
optional callback identifier (`none` models a missing/undefined callback, on
which JS invocation throws a TypeError), `hideIf` is an optional boolean
predicate over an environment `Nat` that stands for the ambient host state at
the moment `open()` evaluates it.
-/

/-- Identity of a click callback: host-supplied items carry `hostCb`,
items built by `getData` from fetched products carry `productCb`. -/
inductive Cb where
  | hostCb (id : Nat)
  | productCb (title : String)
deriving DecidableEq

/-- Embeds the `PopoverItem` typedef (popover.js lines 3-10): `label`,
`icon`, `confirmationRequired`, `hideIf`, `onClick`, plus the optional
`content` element checked by `renderItems`. -/
structure PopoverItem where
  label : String
  icon : String
  confirmationRequired : Bool
  hideIf : Option (Nat → Bool)
  onClick : Option Cb
  content : Option String

/-- Embeds one row element created by `renderItems`: the stamped
`dataset.index`, the two CSS state flags, whether the element is still
attached to the wrapper, and the item whose icon/label/content it shows. -/
structure RowEl where
  stampedIndex : Nat
  confirmState : Bool
  hiddenState : Bool
  attached : Bool
  renderedItem : PopoverItem

/-- Embeds the `Popover` instance state shared by both variants. -/
structure PopState where
  items : List PopoverItem
  itemEls : List RowEl
  rootOpened : Bool

/-- Outcome of one `popoverClicked` invocation: no row resolved, a row armed
(confirmation class added), an `onClick` invoked, or a JS TypeError thrown. -/
inductive ClickOutcome where
  | noop
  | armed
  | invoked (cb : Cb)
  | typeError
deriving DecidableEq

/-! ## The search predicates -/

/-- Word character of the JS regex `\b` boundary: `[A-Za-z0-9_]`. -/
def isWordChar (c : Char) : Bool :=
  (('a' ≤ c && c ≤ 'z') || ('A' ≤ c && c ≤ 'Z') || ('0' ≤ c && c ≤ '9') || c == '_')

/-- Whether position `p` of `s` holds a word character (out of range: false). -/
def wordAtPos (s : List Char) (p : Nat) : Bool :=
  match s[p]? with
  | some c => isWordChar c
  | none => false

/-- Word-ness of the character just before position `p` (position 0 has no
character before it). -/
def prevWordAt (s : List Char) : Nat → Bool
  | 0 => false
  | p1 + 1 => wordAtPos s p1

/-- JS regex word boundary `\b` at position `p` (0 ≤ p ≤ |s|): the word-ness
of the character before `p` differs from the word-ness of the one at `p`. -/
def boundaryAt (s : List Char) (p : Nat) : Bool :=
  prevWordAt s p != wordAtPos s p

/-- Case-insensitive character comparison, as the regex `i` flag gives for
the ASCII labels and queries involved. -/
def ciEqChar (a b : Char) : Bool := a.toLower == b.toLower

/-- Whether the literal pattern `q` matches `s` at offset `i`,
case-insensitively. -/
def matchAt (q s : List Char) (i : Nat) : Bool :=
  decide (i + q.length ≤ s.length) &&
    (List.zip ((s.drop i).take q.length) q).all (fun p => ciEqChar p.1 p.2)

/-- Semantics of `new RegExp('\\b' + escaped(q) + '\\b', 'i').test(s)` for the
escaped (hence literal) query `q` of the local keydown handler (line 321):
some offset of `s` carries a case-insensitive occurrence of `q` whose start
and end both fall on word boundaries. -/
def wbMatchL (q s : List Char) : Bool :=
  (List.range (s.length + 1)).any
    (fun i => boundaryAt s i && matchAt q s i && boundaryAt s (i + q.length))

/-- String wrapper of `wbMatchL`. -/
def wbMatch (q s : String) : Bool := wbMatchL q.toList s.toList

/-- JS `String.prototype.trim()` on the search input value. -/
def jsTrimL (s : List Char) : List Char :=
  (((s.dropWhile Char.isWhitespace).reverse).dropWhile Char.isWhitespace).reverse

/-- String wrapper of `jsTrimL`. -/
def jsTrim (s : String) : String := ⟨jsTrimL s.toList⟩

/-- Semantics of the regex `input.split('').join('.*?')` with flag `i` used by
`findMatchingItem` (line 97): the characters of the input appear in order,
with arbitrary gaps, case-insensitively. -/
def subseqMatch : List Char → List Char → Bool
  | [], _ => true
  | _ :: _, [] => false
  | a :: q, b :: s => if ciEqChar a b then subseqMatch q s else subseqMatch (a :: q) s

/-- Embeds `findMatchingItem(input, itemList)` (popover.js lines 96-105): keep
the items whose (lowercased) label the subsequence regex accepts. This is the
matcher the spec describes for the local-filter path; its only call site
(line 120) is commented out in the source. -/
def findMatchingItem (input : String) (itemList : List PopoverItem) : List PopoverItem :=
  itemList.filter (fun item => subseqMatch input.toList item.label.toList)

/-! ## Rendering -/

/-- Rows built by the `items.forEach((item, index) => ...)` loop of
`renderItems`: each new row is stamped with its position, carries no CSS
state flags, is appended to the wrapper, and shows its item. -/
def buildRows : Nat → List PopoverItem → List RowEl
  | _, [] => []
  | i, item :: rest =>
    { stampedIndex := i, confirmState := false, hiddenState := false,
      attached := true, renderedItem := item } :: buildRows (i + 1) rest

/-- Effect of `querySelectorAll('.tc-popover__item')` + `removeChild` on the
wrapper: every row element still attached becomes detached. Elements already
detached are unaffected, which the map also leaves fixed. (The
`removeEventListener('click', () => {})` call in the source is a no-op:
rows never had individual listeners.) -/
def detachRows (els : List RowEl) : List RowEl :=
  els.map (fun el => { el with attached := false })

/-- Embeds `renderItems(items)` of the remote variant (lines 141-170): it
first reassigns `this.items = items`, removes the currently attached rows,
then appends one freshly built row per new item, pushing each onto
`this.itemEls` (which is never reset). -/
def renderItems_remote (s : PopState) (newItems : List PopoverItem) : PopState :=
  { s with items := newItems,
           itemEls := detachRows s.itemEls ++ buildRows 0 newItems }

/-- Embeds `renderItems(items)` of the local variant (lines 337-365):
identical to the remote one except that `this.items` is NOT reassigned. -/
def renderItems_local (s : PopState) (newItems : List PopoverItem) : PopState :=
  { s with itemEls := detachRows s.itemEls ++ buildRows 0 newItems }

/-- State right after the constructor plus the single mandatory `render()`
call: `this.itemEls` starts empty, `render()` builds the wrapper and search
input and performs `renderItems(this.items)` on the initial item list. -/
def mkRendered (items : List PopoverItem) : PopState :=
  { items := items, itemEls := buildRows 0 items, rootOpened := false }

/-- Embeds one keystroke of the local variant (lines 317-323): trim the input
value, escape regex metacharacters (hence the pattern is the literal query),
filter `this.items` — still the original full list, since the local
`renderItems` never reassigns it — through the `\b...\b` regex, and re-render
the filtered list. -/
def keydownLocal (s : PopState) (raw : String) : PopState :=
  renderItems_local s (s.items.filter (fun item => wbMatch (jsTrim raw) item.label))

/-! ## Click delegation -/

/-- Embeds `popoverClicked(event)` (remote lines 178-197, local lines
373-393). The click target is `none` when `event.target.closest` finds no
ancestor row, else `some j` with `j` the position of the clicked element in
`itemEls` (only an attached element can be clicked; the inner `none` branch of
the lookup is therefore unreachable and modelled as the same no-op). When the
stamped index resolves to no item, both variants throw a TypeError (the local
one at `item.confirmationRequired`, the remote one at `item.onClick()` after
`item?.confirmationRequired` evaluates to undefined), with no state change
either way. -/
def popoverClicked (s : PopState) (target : Option Nat) : PopState × ClickOutcome :=
  match target with
  | none => (s, ClickOutcome.noop)
  | some j =>
    match s.itemEls[j]? with
    | none => (s, ClickOutcome.noop)
    | some el =>
      match s.items[el.stampedIndex]? with
      | none => (s, ClickOutcome.typeError)
      | some item =>
        if item.confirmationRequired && !el.confirmState then
          ({ s with itemEls := s.itemEls.set j { el with confirmState := true } },
           ClickOutcome.armed)
        else
          match item.onClick with
          | some cb => (s, ClickOutcome.invoked cb)
          | none => (s, ClickOutcome.typeError)

/-! ## Open / close -/

/-- Effect of the `this.items.forEach((item, index) => ...)` loop of `open()`
(remote lines 244-248, local lines 440-444) on the element list: the element
at each item's index gets its hidden flag toggled to `item.hideIf()` when the
item defines `hideIf`. The loop touches elements pointwise by index, which
this structural recursion mirrors; an index with an item but no element would
throw in JS, but `renderItems` keeps `itemEls` at least as long as `items`,
so that case is unreachable. -/
def openEls : List PopoverItem → List RowEl → Nat → List RowEl
  | _, [], _ => []
  | [], el :: els, _ => el :: els
  | item :: items, el :: els, env =>
    (match item.hideIf with
     | some p => { el with hiddenState := p env }
     | none => el) :: openEls items els env

/-- Embeds `open()` (remote lines 240-251, local lines 436-447): re-evaluate
every `hideIf` against the current environment, then add the opened class.
(`open` is a Lean keyword, hence the name `openMenu`.) -/
def openMenu (s : PopState) (env : Nat) : PopState :=
  { s with itemEls := openEls s.items s.itemEls env, rootOpened := true }

/-- Embeds `close()` (remote lines 258-263, local lines 454-459): remove the
opened class and clear the confirmation class on every element of
`this.itemEls`. -/
def closeMenu (s : PopState) : PopState :=
  { s with rootOpened := false,
           itemEls := s.itemEls.map (fun el => { el with confirmState := false }) }

/-! ## The remote fetch cycle -/

/-- Outcome of the external `fetch` call inside `getData`: a product list
(title, category), or a rejection. -/
inductive FetchOutcome where
  | ok (products : List (String × String))
  | failed (msg : String)

/-- Message of the JS TypeError raised by `result.products` when the caught
fetch rejection left `result` undefined. -/
def typeErrorUndefinedProducts : String :=
  "TypeError: cannot read properties of undefined (reading products)"

/-- Item `getData` wraps around a fetched product (lines 63-87). -/
def mkProductItem (p : String × String) : PopoverItem :=
  { label := p.1, icon := "IconDirectionLeftDown", confirmationRequired := false,
    hideIf := none, onClick := some (Cb.productCb p.1), content := none }

/-- Embeds `getData()` (lines 46-89). On a successful fetch it returns the
first two current items followed by one item per product. On a rejected
fetch, the `.catch` logs the error and yields `undefined`, after which
`result.products.map` throws a TypeError, so the async function rejects. -/
def getData (currentItems : List PopoverItem) (fetch : FetchOutcome) :
    Except String (List PopoverItem) :=
  match fetch with
  | FetchOutcome.ok products =>
    Except.ok (currentItems.take 2 ++ products.map mkProductItem)
  | FetchOutcome.failed _ => Except.error typeErrorUndefinedProducts

/-- Embeds one fired debounce callback of the remote keydown handler (lines
122-126): `getData().then(item => this.renderItems(item))`. On success the
combined list is rendered; on rejection the `then` callback never runs — no
re-render — and, with no rejection handler attached, the TypeError escapes as
an unhandled promise rejection (returned in the second component). -/
def remoteFireCycle (s : PopState) (fetch : FetchOutcome) : PopState × Option String :=
  match getData s.items fetch with
  | Except.ok newItems => (renderItems_remote s newItems, none)
  | Except.error e => (s, some e)

/-! ## The debounce timer -/

/-- Delay passed to `setTimeout` in the remote keydown handler (line 126). -/
def debounceDelay : Nat := 500

/-- Embeds the timer discipline of the remote keydown handler (lines 121-126)
over a trace of keystroke times: each keystroke first runs `clearTimeout` on
the pending timer — which has already fired only if its fire time is at most
the keystroke time — then schedules a new timer `debounceDelay` later.
Returns the times at which a debounce callback (one fetch cycle each)
actually fires. -/
def fireTimes : List Nat → Option Nat → List Nat
  | [], pending =>
    (match pending with
     | some f => [f]
     | none => [])
  | t :: rest, pending =>
    (match pending with
     | some f => if f ≤ t then [f] else []
     | none => []) ++ fireTimes rest (some (t + debounceDelay))

/-- A burst of typing: strictly increasing keystroke times, consecutive ones
less than `debounceDelay` apart. -/
def burst : List Nat → Bool
  | a :: b :: rest => decide (a < b) && decide (b < a + debounceDelay) && burst (b :: rest)
  | _ => true

/-! ## Helper lemmas -/

theorem detachRows_filter_attached (els : List RowEl) :
    (detachRows els).filter (fun el => el.attached) = [] := by
  induction els with
  | nil => rfl
  | cons el els ih =>
    simp only [detachRows, List.map_cons, List.filter_cons] at ih ⊢
    simp [ih]

theorem buildRows_filter_attached (i : Nat) (items : List PopoverItem) :
    (buildRows i items).filter (fun el => el.attached) = buildRows i items := by
  induction items generalizing i with
  | nil => rfl
  | cons item rest ih => simp [buildRows, List.filter_cons, ih]

theorem buildRows_map_renderedItem (i : Nat) (items : List PopoverItem) :
    (buildRows i items).map (fun el => el.renderedItem) = items := by
  induction items generalizing i with
  | nil => rfl
  | cons item rest ih => simp [buildRows, ih]

theorem wordAtPos_lt_length {s : List Char} {p : Nat} (h : wordAtPos s p = true) :
    p < s.length := by
  by_contra hlt
  rw [wordAtPos, List.getElem?_eq_none (Nat.le_of_not_lt hlt)] at h
  simp at h

theorem exists_boundary_iff (s : List Char) :
    (∃ p, boundaryAt s p = true) ↔ (∃ p, wordAtPos s p = true) := by
  constructor
  · rintro ⟨p, hp⟩
    rw [boundaryAt, bne_iff_ne] at hp
    cases hcur : wordAtPos s p with
    | true => exact ⟨p, hcur⟩
    | false =>
      cases p with
      | zero =>
        rw [hcur] at hp
        simp [prevWordAt] at hp
      | succ p1 =>
        refine ⟨p1, ?_⟩
        rw [hcur] at hp
        simp only [prevWordAt] at hp
        cases hprev : wordAtPos s p1 with
        | true => rfl
        | false => exact absurd hprev hp
  · rintro ⟨p, hp⟩
    have hex : ∃ q, wordAtPos s q = true := ⟨p, hp⟩
    refine ⟨Nat.find hex, ?_⟩
    have hkw : wordAtPos s (Nat.find hex) = true := Nat.find_spec hex
    cases hk : Nat.find hex with
    | zero =>
      rw [hk] at hkw
      simp [boundaryAt, prevWordAt, hkw]
    | succ m =>
      rw [hk] at hkw
      have hm : wordAtPos s m = false := by
        have hmin := Nat.find_min hex (m := m) (by omega)
        cases hmw : wordAtPos s m with
        | true => exact absurd hmw hmin
        | false => rfl
      simp [boundaryAt, prevWordAt, hm, hkw]

theorem wbMatchL_nil (s : List Char) : wbMatchL [] s = s.any isWordChar := by
  rw [Bool.eq_iff_iff, wbMatchL, List.any_eq_true, List.any_eq_true]
  constructor
  · rintro ⟨i, _, hi⟩
    simp only [Bool.and_eq_true] at hi
    obtain ⟨⟨hb, _⟩, _⟩ := hi
    obtain ⟨p, hp⟩ := (exists_boundary_iff s).mp ⟨i, hb⟩
    cases hc : s[p]? with
    | none => rw [wordAtPos, hc] at hp; simp at hp
    | some c =>
      refine ⟨c, List.mem_iff_getElem?.mpr ⟨p, hc⟩, ?_⟩
      rw [wordAtPos, hc] at hp
      exact hp
  · rintro ⟨c, hcmem, hcw⟩
    obtain ⟨p, hple, hpc⟩ := List.getElem_of_mem hcmem
    have hword : wordAtPos s p = true := by
      rw [wordAtPos, List.getElem?_eq_getElem hple, hpc]
      exact hcw
    obtain ⟨k, hkb⟩ := (exists_boundary_iff s).mpr ⟨p, hword⟩
    have hkl : k ≤ s.length := by
      rw [boundaryAt, bne_iff_ne] at hkb
      by_contra hgt
      have h1 : wordAtPos s k = false := by
        rw [wordAtPos, List.getElem?_eq_none (by omega)]
      have h2 : prevWordAt s k = false := by
        cases k with
        | zero => rfl
        | succ m =>
          rw [prevWordAt, wordAtPos, List.getElem?_eq_none (by omega)]
      rw [h1, h2] at hkb
      exact hkb rfl
    refine ⟨k, List.mem_range.mpr (by omega), ?_⟩
    have hmatch : matchAt [] s k = true := by
      simp [matchAt, hkl]
    simp [hkb, hmatch]

theorem openEls_getElem? (items : List PopoverItem) (els : List RowEl) (env j : Nat) :
    (openEls items els env)[j]? =
      (els[j]?).map (fun el =>
        match items[j]? with
        | some item =>
          (match item.hideIf with
           | some p => { el with hiddenState := p env }
           | none => el)
        | none => el) := by
  induction els generalizing items j with
  | nil => cases items <;> simp [openEls]
  | cons el els ih =>
    cases items with
    | nil =>
      cases j with
      | zero => simp [openEls]
      | succ k => simp [openEls]
    | cons item items =>
      cases j with
      | zero => simp [openEls]
      | succ k => simpa [openEls] using ih items k

/-! ## Concrete items for the evaluated scenarios -/

/-- A confirmation-guarded item, as in the spec scenario with label Delete. -/
def deleteItem : PopoverItem :=
  { label := "Delete", icon := "", confirmationRequired := true,
    hideIf := none, onClick := some (Cb.hostCb 0), content := none }

/-- A plain item with label Rename and callback id 0. -/
def renameItem : PopoverItem :=
  { label := "Rename", icon := "", confirmationRequired := false,
    hideIf := none, onClick := some (Cb.hostCb 0), content := none }

/-- A plain item with label Copy and callback id 1. -/
def copyItem : PopoverItem :=
  { label := "Copy", icon := "", confirmationRequired := false,
    hideIf := none, onClick := some (Cb.hostCb 1), content := none }

/-- An item whose label holds no word character. -/
def plusItem : PopoverItem :=
  { label := "++", icon := "", confirmationRequired := false,
    hideIf := none, onClick := some (Cb.hostCb 2), content := none }

/-- A hideIf predicate that is true in every environment. -/
def hideAlways : Nat → Bool := fun _ => true

/-- A hideIf predicate that is false in every environment. -/
def hideNever : Nat → Bool := fun _ => false

/-- An item whose hideIf currently returns false. -/
def itemA : PopoverItem :=
  { label := "A", icon := "", confirmationRequired := false,
    hideIf := some hideNever, onClick := some (Cb.hostCb 3), content := none }

/-- An item whose hideIf currently returns true. -/
def itemB : PopoverItem :=
  { label := "B", icon := "", confirmationRequired := false,
    hideIf := some hideAlways, onClick := some (Cb.hostCb 4), content := none }

/-- An item whose onClick is missing (undefined). -/
def noCbItem : PopoverItem :=
  { label := "Broken", icon := "", confirmationRequired := false,
    hideIf := none, onClick := none, content := none }

/-! ## Claim C1 -/

/-- Claim C1, as stated, is false: on the item list [deleteItem] the typed
query del must, per the claim, re-render exactly the labels that contain
d, e, l in order as a subsequence — the source's own `findMatchingItem`
selects [deleteItem] — yet the local keydown handler renders no row at all,
because its `\b...\b` regex requires the query as a word-boundary-delimited
substring and the l/e junction inside Delete is not a word boundary.
Moreover the empty query does not re-render all of L: an item whose label
holds no word character (label ++) is dropped, since `\b\b` needs at least
one word boundary. -/
theorem C1_counterexample :
    ((keydownLocal (mkRendered [deleteItem]) ("del")).itemEls.filter
        (fun el => el.attached)).map (fun el => el.renderedItem) = []
    ∧ findMatchingItem ("del") [deleteItem] = [deleteItem]
    ∧ ((keydownLocal (mkRendered [plusItem]) ("")).itemEls.filter
        (fun el => el.attached)).map (fun el => el.renderedItem) = [] :=
  ⟨rfl, rfl, rfl⟩

/-- Claim C1 (amended): for every item list L and typed query q, a keystroke
in the local variant re-renders exactly the items of L whose label matches
the trimmed query, compared case-insensitively, as a contiguous substring
whose start and end both fall on word boundaries (the escaped query is
literal, so regex metacharacters in q are inert), preserving the relative
order of L; the empty query re-renders exactly the items of L whose label
contains at least one word character (letter, digit or underscore), not
necessarily all of L. -/
theorem C1_local_filter_wordBoundary (s : PopState) (raw : String) :
    ((keydownLocal s raw).itemEls.filter (fun el => el.attached)).map
        (fun el => el.renderedItem)
      = s.items.filter (fun item => wbMatch (jsTrim raw) item.label)
    ∧ ((keydownLocal s ("")).itemEls.filter (fun el => el.attached)).map
        (fun el => el.renderedItem)
      = s.items.filter (fun item => item.label.toList.any isWordChar) := by
  have base : ∀ q : String,
      ((keydownLocal s q).itemEls.filter (fun el => el.attached)).map
          (fun el => el.renderedItem)
        = s.items.filter (fun item => wbMatch (jsTrim q) item.label) := by
    intro q
    simp only [keydownLocal, renderItems_local]
    rw [List.filter_append, detachRows_filter_attached, buildRows_filter_attached,
        List.nil_append, buildRows_map_renderedItem]
  refine ⟨base raw, ?_⟩
  rw [base ("")]
  refine List.filter_congr ?_
  intro item hmem
  exact wbMatchL_nil item.label.toList

/-! ## Claim C2 -/

/-- Local-variant state after typing Copy over the list [Rename, Copy]. -/
def c2state : PopState := keydownLocal (mkRendered [renameItem, copyItem]) ("Copy")

/-- Claim C2 fails on the local variant: after the filtering re-render the
single attached row shows Copy (stamped index 0 of the filtered view), but
clicking it — position 2 of `itemEls`, the only attached element — invokes
callback `hostCb 0`, which is Rename's `onClick`, because the local
`renderItems` never reassigns `this.items`, so `popoverClicked` resolves the
stamped index against the original unfiltered list. -/
theorem C2_stale_items_lookup_eval :
    (c2state.itemEls.filter (fun el => el.attached)).map
        (fun el => el.renderedItem.label) = [("Copy" : String)]
    ∧ (popoverClicked c2state (some 2)).2 = ClickOutcome.invoked (Cb.hostCb 0)
    ∧ renameItem.onClick = some (Cb.hostCb 0)
    ∧ copyItem.onClick = some (Cb.hostCb 1) :=
  ⟨rfl, rfl, rfl, rfl⟩

/-! ## Claim C3 -/

/-- Claim C3 fails after any second `renderItems` call: starting from the
rendered state over [Rename] and calling the remote `renderItems([Copy])`,
the item list has length 1 and exactly one row element is attached to the
root (that part of the claim holds), but `this.itemEls` now has length 2 —
the stale detached row of the first render is never removed from it, so the
row-element list and the item list are no longer the same length. -/
theorem C3_itemEls_leak_eval :
    (renderItems_remote (mkRendered [renameItem]) [copyItem]).itemEls.length = 2
    ∧ (renderItems_remote (mkRendered [renameItem]) [copyItem]).items.length = 1
    ∧ ((renderItems_remote (mkRendered [renameItem]) [copyItem]).itemEls.filter
        (fun el => el.attached)).length = 1 :=
  ⟨rfl, rfl, rfl⟩

/-! ## Claim C4 -/

/-- Claim C4: the confirmation policy of `popoverClicked` (same conditional in
both variants). For a row whose resolved item requires confirmation and is
not yet armed, the first click arms the row — confirmation flag set, item
list untouched, no callback invoked — and a second click in succession on the
now-armed row invokes that item's `onClick` exactly once, leaving the state
(the armed flag included) unchanged. For a row whose resolved item does not
require confirmation, each click invokes its `onClick` immediately with no
state change. -/
theorem C4_confirmation_two_click
    (s : PopState) (j k : Nat) (el elp : RowEl) (item itemp : PopoverItem) (cb cbp : Cb)
    (h1 : s.itemEls[j]? = some el)
    (h2 : s.items[el.stampedIndex]? = some item)
    (hcr : item.confirmationRequired = true)
    (hun : el.confirmState = false)
    (hcb : item.onClick = some cb)
    (h1p : s.itemEls[k]? = some elp)
    (h2p : s.items[elp.stampedIndex]? = some itemp)
    (hcrp : itemp.confirmationRequired = false)
    (hcbp : itemp.onClick = some cbp) :
    (popoverClicked s (some j)).2 = ClickOutcome.armed
    ∧ ((popoverClicked s (some j)).1).itemEls[j]? = some { el with confirmState := true }
    ∧ ((popoverClicked s (some j)).1).items = s.items
    ∧ (popoverClicked ((popoverClicked s (some j)).1) (some j)).2
        = ClickOutcome.invoked cb
    ∧ (popoverClicked ((popoverClicked s (some j)).1) (some j)).1
        = (popoverClicked s (some j)).1
    ∧ (popoverClicked s (some k)).2 = ClickOutcome.invoked cbp
    ∧ (popoverClicked s (some k)).1 = s := by
  have hj : j < s.itemEls.length := by
    by_contra h
    rw [List.getElem?_eq_none (Nat.le_of_not_lt h)] at h1
    exact Option.noConfusion h1
  have hfirst : popoverClicked s (some j)
      = ({ s with itemEls := s.itemEls.set j { el with confirmState := true } },
         ClickOutcome.armed) := by
    simp [popoverClicked, h1, h2, hcr, hun]
  have hset : (s.itemEls.set j { el with confirmState := true })[j]?
      = some { el with confirmState := true } := List.getElem?_set_self hj
  have hsecond : popoverClicked (popoverClicked s (some j)).1 (some j)
      = ((popoverClicked s (some j)).1, ClickOutcome.invoked cb) := by
    rw [hfirst]
    simp [popoverClicked, hset, h2, hcr, hcb]
  have hplain : popoverClicked s (some k) = (s, ClickOutcome.invoked cbp) := by
    simp [popoverClicked, h1p, h2p, hcrp, hcbp]
  refine ⟨?_, ?_, ?_, ?_, ?_, ?_, ?_⟩
  · rw [hfirst]
  · rw [hfirst]
    exact hset
  · rw [hfirst]
  · rw [hsecond]
  · rw [hsecond]
  · rw [hplain]
  · rw [hplain]

/-- Two-row rendered state for the C4 witness: a confirmation-guarded Delete
item followed by a plain Copy item. -/
def c4state : PopState := mkRendered [deleteItem, copyItem]

/-- Row 0 of `c4state` as built by `renderItems`. -/
def c4row0 : RowEl :=
  { stampedIndex := 0, confirmState := false, hiddenState := false,
    attached := true, renderedItem := deleteItem }

/-- Witness for C4: the two-click scenario evaluated on `c4state`. -/
theorem C4_confirmation_two_click_witness :
    (popoverClicked c4state (some 0)).2 = ClickOutcome.armed
    ∧ ((popoverClicked c4state (some 0)).1).itemEls[0]?
        = some { c4row0 with confirmState := true }
    ∧ ((popoverClicked c4state (some 0)).1).items = c4state.items
    ∧ (popoverClicked ((popoverClicked c4state (some 0)).1) (some 0)).2
        = ClickOutcome.invoked (Cb.hostCb 0)
    ∧ (popoverClicked ((popoverClicked c4state (some 0)).1) (some 0)).1
        = (popoverClicked c4state (some 0)).1
    ∧ (popoverClicked c4state (some 1)).2 = ClickOutcome.invoked (Cb.hostCb 1)
    ∧ (popoverClicked c4state (some 1)).1 = c4state :=
  C4_confirmation_two_click c4state 0 1 c4row0
    { stampedIndex := 1, confirmState := false, hiddenState := false,
      attached := true, renderedItem := copyItem }
    deleteItem copyItem (Cb.hostCb 0) (Cb.hostCb 1)
    rfl rfl rfl rfl rfl rfl rfl rfl rfl

/-! ## Claim C5 -/

/-- The `open()` loop only ever touches the hidden flag of an element: the
stamped index, confirmation flag, attachment and rendered item at any
position survive unchanged. -/
theorem openEls_preserves_stamp_confirm (items : List PopoverItem) (els : List RowEl)
    (env j : Nat) (el : RowEl) (h : els[j]? = some el) :
    ∃ e2, (openEls items els env)[j]? = some e2
      ∧ e2.stampedIndex = el.stampedIndex ∧ e2.confirmState = el.confirmState
      ∧ e2.attached = el.attached ∧ e2.renderedItem = el.renderedItem := by
  rw [openEls_getElem?, h]
  cases hmi : items[j]? with
  | none =>
    refine ⟨el, ?_, rfl, rfl, rfl, rfl⟩
    simp [hmi]
  | some item =>
    cases hif : item.hideIf with
    | none =>
      refine ⟨el, ?_, rfl, rfl, rfl, rfl⟩
      simp [hmi, hif]
    | some p =>
      refine ⟨{ el with hiddenState := p env }, ?_, rfl, rfl, rfl, rfl⟩
      simp [hmi, hif]

/-- Claim C5: `close()` removes the opened flag from the root and clears the
confirmation flag on every element of `itemEls`, regardless of which row was
armed; consequently, after `close()` and a reopening `open()`, clicking a
previously armed confirmation-guarded row arms it again (outcome `armed`)
instead of invoking its `onClick`. -/
theorem C5_close_resets_confirmation
    (s : PopState) (env j : Nat) (el : RowEl) (item : PopoverItem)
    (h1 : s.itemEls[j]? = some el)
    (harmed : el.confirmState = true)
    (h2 : s.items[el.stampedIndex]? = some item)
    (hcr : item.confirmationRequired = true) :
    (closeMenu s).rootOpened = false
    ∧ ((closeMenu s).itemEls.all (fun e => e.confirmState == false)) = true
    ∧ (openMenu (closeMenu s) env).rootOpened = true
    ∧ (popoverClicked (openMenu (closeMenu s) env) (some j)).2 = ClickOutcome.armed := by
  have hclose : (closeMenu s).itemEls[j]? = some { el with confirmState := false } := by
    simp [closeMenu, List.getElem?_map, h1]
  obtain ⟨e2, he2, hst, hcf, _, _⟩ :=
    openEls_preserves_stamp_confirm (closeMenu s).items (closeMenu s).itemEls env j
      { el with confirmState := false } hclose
  have h2o : s.items[e2.stampedIndex]? = some item := by
    rw [hst]
    exact h2
  refine ⟨rfl, ?_, rfl, ?_⟩
  · simp [closeMenu, List.all_map, Function.comp]
  · simp only [closeMenu] at he2
    simp [popoverClicked, openMenu, closeMenu, he2, h2o, hcr, hcf]

/-- One-row state whose single confirmation-guarded row is currently armed
and whose menu is open, for the C5 witness. -/
def c5state : PopState :=
  { items := [deleteItem],
    itemEls := [{ stampedIndex := 0, confirmState := true, hiddenState := false,
                  attached := true, renderedItem := deleteItem }],
    rootOpened := true }

/-- Witness for C5: close, reopen, and re-click the previously armed row of
`c5state`. -/
theorem C5_close_resets_confirmation_witness :
    (closeMenu c5state).rootOpened = false
    ∧ ((closeMenu c5state).itemEls.all (fun e => e.confirmState == false)) = true
    ∧ (openMenu (closeMenu c5state) 0).rootOpened = true
    ∧ (popoverClicked (openMenu (closeMenu c5state) 0) (some 0)).2
        = ClickOutcome.armed :=
  C5_close_resets_confirmation c5state 0 0
    { stampedIndex := 0, confirmState := true, hiddenState := false,
      attached := true, renderedItem := deleteItem }
    deleteItem rfl rfl rfl rfl

/-! ## Claim C6 -/

/-- Claim C6 fails after a re-render: starting from the rendered state over
[itemA] and re-rendering to [itemB] via the remote `renderItems`, calling
`open()` leaves the single attached row — the one showing itemB — with its
hidden flag still false although itemB's `hideIf` currently returns true
(`hideAlways`), because the `open()` loop indexes `this.itemEls`, which still
begins with the stale detached row of the first render, so the toggle lands
on that stale element instead of itemB's row. The root is still marked
open. -/
theorem C6_open_stale_row_eval :
    (((openMenu (renderItems_remote (mkRendered [itemA]) [itemB]) 0).itemEls.filter
        (fun el => el.attached)).map (fun el => el.hiddenState)) = [false]
    ∧ itemB.hideIf = some hideAlways
    ∧ hideAlways 0 = true
    ∧ (openMenu (renderItems_remote (mkRendered [itemA]) [itemB]) 0).rootOpened = true :=
  ⟨rfl, rfl, rfl, rfl⟩

/-! ## Claim C7 -/

/-- Auxiliary induction for the debounce discipline: across a burst whose
first keystroke precedes any pending fire time, every intermediate timer is
cancelled and only the timer scheduled by the last keystroke fires. -/
theorem fireTimes_burst_aux (ks : List Nat) :
    ∀ (t : Nat) (pending : Option Nat),
      burst ks = true → ks.getLast? = some t →
      (∀ f, pending = some f → ks.headI < f) →
      fireTimes ks pending = [t + debounceDelay] := by
  induction ks with
  | nil =>
    intro t pending _ hlast _
    simp at hlast
  | cons a rest ih =>
    intro t pending hb hlast hp
    cases rest with
    | nil =>
      have hta : a = t := by simpa using hlast
      subst hta
      cases pending with
      | none => rfl
      | some f =>
        have hf : a < f := hp f rfl
        have hnle : ¬ f ≤ a := by omega
        simp [fireTimes, hnle]
    | cons b rest2 =>
      have hb2 : burst (b :: rest2) = true := by
        simp only [burst, Bool.and_eq_true] at hb
        exact hb.2
      have hab : a < b ∧ b < a + debounceDelay := by
        simp only [burst, Bool.and_eq_true, decide_eq_true_eq] at hb
        exact ⟨hb.1.1, hb.1.2⟩
      have hlast2 : (b :: rest2).getLast? = some t := by
        rw [List.getLast?_cons_cons] at hlast
        exact hlast
      have htail : fireTimes (b :: rest2) (some (a + debounceDelay))
          = [t + debounceDelay] := by
        refine ih t (some (a + debounceDelay)) hb2 hlast2 ?_
        intro f hf
        have hfe : a + debounceDelay = f := Option.some.inj hf
        show (b :: rest2).headI < f
        simp only [List.headI]
        omega
      cases pending with
      | none =>
        rw [show fireTimes (a :: b :: rest2) none
              = [] ++ fireTimes (b :: rest2) (some (a + debounceDelay)) from rfl,
            List.nil_append]
        exact htail
      | some f =>
        have hf : a < f := hp f rfl
        have hnle : ¬ f ≤ a := by omega
        rw [show fireTimes (a :: b :: rest2) (some f)
              = (if f ≤ a then [f] else [])
                  ++ fireTimes (b :: rest2) (some (a + debounceDelay)) from rfl,
            if_neg hnle, List.nil_append]
        exact htail

/-- Claim C7: the remote keydown handler clears any pending debounce timer
and schedules a new one `debounceDelay` (500 ms) later, so across any burst
of keystrokes each spaced under 500 ms apart exactly one debounce callback —
hence at most one fetch cycle — fires, and it is the timer scheduled by the
last keystroke, elapsing 500 ms after it. -/
theorem C7_debounce_single_fire (ks : List Nat) (t : Nat)
    (hb : burst ks = true) (hlast : ks.getLast? = some t) :
    fireTimes ks none = [t + debounceDelay] := by
  refine fireTimes_burst_aux ks t none hb hlast ?_
  intro f hf
  exact Option.noConfusion hf

/-- Witness for C7: three keystrokes at 0, 300 and 600 ms form a burst, and
exactly one fetch cycle fires, 500 ms after the last keystroke. -/
theorem C7_debounce_single_fire_witness :
    burst [0, 300, 600] = true
    ∧ fireTimes [0, 300, 600] none = [600 + debounceDelay] :=
  ⟨by decide, C7_debounce_single_fire [0, 300, 600] 600 (by decide) (by decide)⟩

/-! ## Claim C8 -/

/-- Claim C8 fails on the error path: when the fetch rejects, the `.catch`
inside `getData` logs the error and yields undefined, so no re-render happens
for that keystroke and the menu state is untouched (that much of the claim
holds), but `getData` then evaluates `result.products` on undefined and the
resulting TypeError escapes the cycle as an unhandled promise rejection —
an error does reach the host environment. -/
theorem C8_fetch_failure_eval :
    remoteFireCycle (mkRendered [renameItem, copyItem]) (FetchOutcome.failed ("network error"))
      = (mkRendered [renameItem, copyItem], some typeErrorUndefinedProducts) :=
  rfl

/-! ## Claim C9 -/

/-- Claim C9: when the click target resolves to no ancestor row element —
clicks on the search field, padding, or gaps between rows — `popoverClicked`
returns immediately: the state (confirmation flags included) is unchanged, no
`onClick` is invoked, and no error is raised. -/
theorem C9_click_outside_noop (s : PopState) :
    popoverClicked s none = (s, ClickOutcome.noop) :=
  rfl

/-! ## Claim C10 -/

/-- Claim C10: when a click resolves to an item of the current `items` view
whose `onClick` is missing, and the invocation path is taken (no confirmation
required, or the row already armed), `popoverClicked` throws a TypeError —
calling undefined fails loudly — with no state change. -/
theorem C10_missing_onClick_throws
    (s : PopState) (j : Nat) (el : RowEl) (item : PopoverItem)
    (h1 : s.itemEls[j]? = some el)
    (h2 : s.items[el.stampedIndex]? = some item)
    (hcb : item.onClick = none)
    (hfire : item.confirmationRequired = false ∨ el.confirmState = true) :
    popoverClicked s (some j) = (s, ClickOutcome.typeError) := by
  cases hfire with
  | inl hcr => simp [popoverClicked, h1, h2, hcb, hcr]
  | inr hcf => simp [popoverClicked, h1, h2, hcb, hcf]

/-- Rendered state over the single item with a missing onClick, for the C10
witness. -/
def c10state : PopState := mkRendered [noCbItem]

/-- Witness for C10: clicking the row of `c10state` throws. -/
theorem C10_missing_onClick_throws_witness :
    popoverClicked c10state (some 0) = (c10state, ClickOutcome.typeError) :=
  C10_missing_onClick_throws c10state 0
    { stampedIndex := 0, confirmState := false, hiddenState := false,
      attached := true, renderedItem := noCbItem }
    noCbItem rfl rfl rfl (Or.inl rfl)
